import Mathlib

/-!
# target_detector node: frame normalization, detector dispatch, per-frame failure isolation

Shallow embedding of `src/target_detector.cpp`.

* `TargetDetector.imageCb` is the per-frame handler (lines 44-76): the `try` block is
  `imageCbTry`, the `catch (const std::runtime_error&)` clause is applied in `imageCb`.
* `TargetDetector.construct` is the constructor (lines 24-42), `main` is lines 89-98.
* The library calls the handler makes (sensor_msgs::image_encodings, cv_bridge, OpenCV) are
  embedded next to it, one definition per library function, named as in the library.

Conventions.  A C++ call that may throw returns `Except Exn _`; `Except.error e` coming out of
`imageCb` means that `e` left the handler.  A pixel buffer is the list of its samples, row
major with interleaved channels, each sample a rational number: byte order and row padding
are not represented, and samples are finite.  Arithmetic on integer matrices is evaluated
exactly; the IEEE evaluation of `cv::normalize` on floating-point matrices is a parameter
(`PixelKernels.normalizeFloat`), except where the scale factor is 0 and the result is exact.
-/

namespace TargetDetector

/-! ## Exceptions -/

/-- C++ exception classes that reach the handler.  `cv_bridge::Exception` derives from
`std::runtime_error`; `cv::Exception` derives from `std::exception` only; `other` stands for
any class that does not derive from `std::runtime_error`. -/
inductive Exn where
  | runtime_error (what : String)
  | cv_bridge_Exception (what : String)
  | cv_Exception (what : String)
  | other (what : String)
  deriving DecidableEq, Repr

/-- Whether `catch (const std::runtime_error&)` matches the exception. -/
def Exn.isRuntimeError : Exn → Bool
  | .runtime_error _ => true
  | .cv_bridge_Exception _ => true
  | .cv_Exception _ => false
  | .other _ => false

/-- The text of `ex.what()`. -/
def Exn.what : Exn → String
  | .runtime_error w => w
  | .cv_bridge_Exception w => w
  | .cv_Exception w => w
  | .other w => w

/-! ## sensor_msgs::image_encodings -/

/-- OpenCV sample depths. -/
inductive Depth where
  | CV_8U | CV_8S | CV_16U | CV_16S | CV_32S | CV_32F | CV_64F
  deriving DecidableEq, Repr

/-- The four Bayer mosaics. -/
inductive Bayer where
  | rggb | bggr | gbrg | grbg
  deriving DecidableEq, Repr

/-- Encoding tags of `sensor_msgs/Image`: the named encodings, the generic `<depth>C<n>`
family, and any other string. -/
inductive Encoding where
  | rgb8 | rgba8 | rgb16 | rgba16
  | bgr8 | bgra8 | bgr16 | bgra16
  | mono8 | mono16
  | bayer8 (p : Bayer)
  | bayer16 (p : Bayer)
  | yuv422
  | generic (d : Depth) (cn : Nat)
  | unknown (name : String)
  deriving DecidableEq, Repr

/-- Bits per sample of a depth. -/
def Depth.bits : Depth → Nat
  | .CV_8U => 8 | .CV_8S => 8
  | .CV_16U => 16 | .CV_16S => 16
  | .CV_32S => 32 | .CV_32F => 32
  | .CV_64F => 64

/-- Whether the samples of a depth are floating-point numbers. -/
def Depth.isFloat : Depth → Bool
  | .CV_32F | .CV_64F => true
  | _ => false

def isColor : Encoding → Bool
  | .rgb8 | .bgr8 | .rgba8 | .bgra8 | .rgb16 | .bgr16 | .rgba16 | .bgra16 => true
  | _ => false

def isMono : Encoding → Bool
  | .mono8 | .mono16 => true
  | _ => false

def isBayer : Encoding → Bool
  | .bayer8 _ | .bayer16 _ => true
  | _ => false

/-- `sensor_msgs::image_encodings::bitDepth`; throws `std::runtime_error` on an unknown tag. -/
def bitDepth : Encoding → Except Exn Nat
  | .rgb8 | .rgba8 | .bgr8 | .bgra8 | .mono8 | .bayer8 _ | .yuv422 => .ok 8
  | .rgb16 | .rgba16 | .bgr16 | .bgra16 | .mono16 | .bayer16 _ => .ok 16
  | .generic d _ => .ok d.bits
  | .unknown name => .error (.runtime_error ("Unknown encoding " ++ name))

/-- `sensor_msgs::image_encodings::numChannels`. -/
def numChannels : Encoding → Except Exn Nat
  | .mono8 | .mono16 | .bayer8 _ | .bayer16 _ => .ok 1
  | .rgb8 | .bgr8 | .rgb16 | .bgr16 => .ok 3
  | .rgba8 | .bgra8 | .rgba16 | .bgra16 => .ok 4
  | .yuv422 => .ok 2
  | .generic _ cn => .ok cn
  | .unknown name => .error (.runtime_error ("Unknown encoding " ++ name))

/-! ## Messages and matrices -/

/-- `std_msgs/Header`. -/
structure Header where
  seq : Nat
  stamp : Nat
  frame_id : String
  deriving DecidableEq, Repr

/-- `sensor_msgs/Image`, the raw frame. -/
structure Image where
  header : Header
  height : Nat
  width : Nat
  encoding : Encoding
  data : List ℚ
  deriving DecidableEq

/-- `cv::Mat`. -/
structure Mat where
  rows : Nat
  cols : Nat
  depth : Depth
  channels : Nat
  data : List ℚ
  deriving DecidableEq

/-- `cv_bridge::CvImage`. -/
structure CvImage where
  header : Header
  encoding : Encoding
  image : Mat
  deriving DecidableEq

/-! ## OpenCV -/

/-- `cvRound`: nearest integer, ties to the even one. -/
def cvRound (x : ℚ) : ℤ :=
  let f := ⌊x⌋
  let r := x - f
  if r < 1 / 2 then f else if 1 / 2 < r then f + 1 else if f % 2 = 0 then f else f + 1

/-- Clamp an integer to `[lo, hi]`. -/
def clamp (lo hi v : ℤ) : ℤ := if v < lo then lo else if hi < v then hi else v

/-- `cv::saturate_cast<T>` from a real value to the sample type of the depth. -/
def saturate_cast (d : Depth) (x : ℚ) : ℚ :=
  match d with
  | .CV_8U => clamp 0 255 (cvRound x)
  | .CV_8S => clamp (-128) 127 (cvRound x)
  | .CV_16U => clamp 0 65535 (cvRound x)
  | .CV_16S => clamp (-32768) 32767 (cvRound x)
  | .CV_32S => clamp (-2147483648) 2147483647 (cvRound x)
  | .CV_32F => x
  | .CV_64F => x

/-- `cv::Mat::convertTo(dst, rtype, alpha, beta)`: every sample becomes
`saturate_cast<rtype>(v * alpha + beta)`.  The multiply-add is evaluated exactly; on
floating-point matrices it is used with `alpha = 0` or with `alpha = 1, beta = 0` only, where
the IEEE evaluation is exact as well. -/
def Mat.convertTo (m : Mat) (rtype : Depth) (alpha beta : ℚ) : Mat :=
  { m with depth := rtype, data := m.data.map (fun v => saturate_cast rtype (v * alpha + beta)) }

/-- The constant `DBL_EPSILON`, 2^-52. -/
def DBL_EPSILON : ℚ := 1 / 4503599627370496

/-- `cv::minMaxIdx` without mask and index outputs: the extreme samples over all channels. -/
def minMaxIdx (m : Mat) : ℚ × ℚ :=
  match m.data with
  | [] => (0, 0)
  | x :: xs => (xs.foldl min x, xs.foldl max x)

/-- Pixel kernels whose arithmetic is outside this development.  `demosaic` and `uyvy` map
the samples of the source to the samples of the BGR result.  `normalizeFloat src a b v` is the
sample that `cv::normalize(src, dst, a, b, NORM_MINMAX)` writes for the source sample `v` of a
floating-point matrix whose samples spread over more than `DBL_EPSILON`: it is the IEEE
evaluation of `v * scale + shift`, with its rounding and overflow. -/
structure PixelKernels where
  demosaic : Bayer → Mat → List ℚ
  uyvy : Mat → List ℚ
  normalizeFloat : Mat → ℚ → ℚ → ℚ → ℚ

/-- `cv::normalize(src, dst, a, b, NORM_MINMAX)` with the default `dtype = -1`: the result keeps
the depth of the source.  `scale` is `(dmax - dmin) / (smax - smin)` when the spread exceeds
`DBL_EPSILON` and 0 otherwise, `shift` is `dmin - smin * scale`, and every sample becomes
`saturate_cast(v * scale + shift)`.  On an integer matrix, and on any matrix whose spread
does not exceed `DBL_EPSILON` (where `scale` is 0), the samples are computed here; on a
floating-point matrix with a larger spread they are those of `k.normalizeFloat`. -/
def normalize (k : PixelKernels) (src : Mat) (a b : ℚ) : Mat :=
  let smin := (minMaxIdx src).1
  let smax := (minMaxIdx src).2
  let dmin := min a b
  let dmax := max a b
  if src.depth.isFloat = true ∧ DBL_EPSILON < smax - smin then
    { src with data := src.data.map (k.normalizeFloat src a b) }
  else
    let scale := (dmax - dmin) * (if DBL_EPSILON < smax - smin then 1 / (smax - smin) else 0)
    let shift := dmin - smin * scale
    src.convertTo src.depth scale shift

/-- Colour conversion codes used by the node and by cv_bridge for a BGR destination. -/
inductive ColorCode where
  | COLOR_GRAY2BGR | COLOR_RGB2BGR | COLOR_RGBA2BGR | COLOR_BGRA2BGR
  | COLOR_YUV2BGR_UYVY
  | COLOR_Bayer2BGR (p : Bayer)
  deriving DecidableEq, Repr

/-- Split a sample list into pixels of `n` samples. -/
def pixels (n : Nat) (xs : List ℚ) : List (List ℚ) := xs.toChunks n

/-- Number of source channels a colour conversion code accepts. -/
def ColorCode.scn : ColorCode → List Nat
  | .COLOR_GRAY2BGR => [1]
  | .COLOR_RGB2BGR => [3, 4]
  | .COLOR_RGBA2BGR => [3, 4]
  | .COLOR_BGRA2BGR => [3, 4]
  | .COLOR_YUV2BGR_UYVY => [2]
  | .COLOR_Bayer2BGR _ => [1]

/-- `cv::cvtColor(src, dst, code)` for a 3-channel destination.  OpenCV raises `cv::Exception`
on an empty source and on a source whose channel count the code does not accept. -/
def cvtColor (k : PixelKernels) (src : Mat) (code : ColorCode) : Except Exn Mat :=
  if src.data = [] then .error (.cv_Exception "(-215:Assertion failed) !_src.empty()")
  else if src.channels ∉ code.scn then
    .error (.cv_Exception "Invalid number of channels in input image")
  else
    let out : List ℚ :=
      match code with
      | .COLOR_GRAY2BGR => src.data.flatMap (fun v => [v, v, v])
      | .COLOR_RGB2BGR => (pixels src.channels src.data).flatMap (fun p => (p.take 3).reverse)
      | .COLOR_RGBA2BGR => (pixels src.channels src.data).flatMap (fun p => (p.take 3).reverse)
      | .COLOR_BGRA2BGR => (pixels src.channels src.data).flatMap (fun p => p.take 3)
      | .COLOR_YUV2BGR_UYVY => k.uyvy src
      | .COLOR_Bayer2BGR p => k.demosaic p src
    .ok { src with channels := 3, data := out }

/-! ## cv_bridge -/

/-- `cv_bridge::getCvType`: depth and channel count of the matrix holding an encoding; throws
`cv_bridge::Exception` on an unrecognized tag. -/
def getCvType : Encoding → Except Exn (Depth × Nat)
  | .bgr8 | .rgb8 => .ok (.CV_8U, 3)
  | .mono8 => .ok (.CV_8U, 1)
  | .mono16 => .ok (.CV_16U, 1)
  | .bgr16 | .rgb16 => .ok (.CV_16U, 3)
  | .bgra8 | .rgba8 => .ok (.CV_8U, 4)
  | .bgra16 | .rgba16 => .ok (.CV_16U, 4)
  | .bayer8 _ => .ok (.CV_8U, 1)
  | .bayer16 _ => .ok (.CV_16U, 1)
  | .yuv422 => .ok (.CV_8U, 2)
  | .generic d cn => .ok (d, cn)
  | .unknown name => .error (.cv_bridge_Exception ("Unrecognized image encoding [" ++ name ++ "]"))

/-- `cv_bridge::matFromImage`: the matrix over the message buffer; throws
`cv_bridge::Exception` when the buffer size does not match the dimensions. -/
def matFromImage (source : Image) : Except Exn Mat := do
  let (d, cn) ← getCvType source.encoding
  if source.data.length ≠ source.height * source.width * cn then
    throw (.cv_bridge_Exception "Image is wrongly formed")
  return { rows := source.height, cols := source.width, depth := d, channels := cn,
           data := source.data }

/-- One step of a cv_bridge conversion: a depth change or a colour conversion. -/
inductive Conversion where
  | SAME_FORMAT
  | color (code : ColorCode)
  deriving DecidableEq, Repr

/-- `cv_bridge::getConversionCode(src_encoding, "bgr8")`. -/
def getConversionCode (src : Encoding) : Except Exn (List Conversion) :=
  if !(isColor src || isMono src || isBayer src || src = .yuv422) then
    .error (.cv_bridge_Exception "source is not a color format. but [bgr8] is")
  else
    let entry : List Conversion :=
      match src with
      | .mono8 | .mono16 => [.color .COLOR_GRAY2BGR]
      | .rgb8 | .rgb16 => [.color .COLOR_RGB2BGR]
      | .rgba8 | .rgba16 => [.color .COLOR_RGBA2BGR]
      | .bgra8 | .bgra16 => [.color .COLOR_BGRA2BGR]
      | .bgr8 | .bgr16 => [.SAME_FORMAT]
      | .yuv422 => [.color .COLOR_YUV2BGR_UYVY]
      | .bayer8 p | .bayer16 p => [.color (.COLOR_Bayer2BGR p)]
      | _ => []
    match bitDepth src with
    | .error e => .error e
    | .ok b =>
      if b ≠ 8 ∧ src ≠ .bgr16 then .ok (entry ++ [.SAME_FORMAT]) else .ok entry

/-- The conversion loop of `cv_bridge::toCvCopyImpl` for the destination bgr8. -/
def applyConversions (k : PixelKernels) (srcBits : Nat) : List Conversion → Mat → Except Exn Mat
  | [], image1 => .ok image1
  | .SAME_FORMAT :: rest, image1 =>
    let image2 :=
      if srcBits = 16 then image1.convertTo .CV_8U (255 / 65535) 0
      else image1.convertTo .CV_8U 1 0
    applyConversions k srcBits rest image2
  | .color code :: rest, image1 =>
    match cvtColor k image1 code with
    | .error e => .error e
    | .ok image2 => applyConversions k srcBits rest image2

/-- `cv_bridge::toCvCopy(msg)` with no destination encoding, or `toCvCopy(msg, "bgr8")` when
`bgr8` is set: the header is copied, the pixels are copied or converted. -/
def toCvCopy (k : PixelKernels) (source : Image) (bgr8 : Bool) : Except Exn CvImage := do
  let m ← matFromImage source
  if !bgr8 || source.encoding = .bgr8 then
    return { header := source.header, encoding := source.encoding, image := m }
  else
    let codes ← getConversionCode source.encoding
    let b ← bitDepth source.encoding
    let image2 ← applyConversions k b codes m
    return { header := source.header, encoding := .bgr8, image := image2 }

/-- `cv_bridge::CvImage::toImageMsg`. -/
def CvImage.toImageMsg (c : CvImage) : Image :=
  { header := c.header, height := c.image.rows, width := c.image.cols, encoding := c.encoding,
    data := c.image.data }

/-! ## The node -/

/-- `industrial_calibration::TargetFeatures2D`: feature id to image points. -/
abbrev TargetFeatures2D := List (Nat × List (ℚ × ℚ))

/-- `industrial_calibration::TargetFinderOpenCV`: the detector loaded at startup.  Both
operations may throw. -/
structure TargetFinder where
  findTargetFeatures : Mat → Except Exn TargetFeatures2D
  drawTargetFeatures : Mat → TargetFeatures2D → Except Exn Mat

/-- What one call of the handler does to the outside: a publication on one of the two
outputs, or a line written by `ROS_ERROR_STREAM`. -/
inductive Event where
  | detected (msg : Image)
  | annotated (msg : Image)
  | error_log (text : String)
  deriving DecidableEq

/-- Lines 49-61 of `imageCb`: the canonical frame handed to the detector. -/
def normalizeFrame (k : PixelKernels) (msg : Image) : Except Exn CvImage := do
  let b ← bitDepth msg.encoding
  if b = 8 then
    toCvCopy k msg true
  else
    let cv_ptr ← toCvCopy k msg false
    let image := normalize k cv_ptr.image 0 255
    let image := image.convertTo .CV_8U 1 0
    let cv_ptr : CvImage := { cv_ptr with image := image, encoding := .bgr8 }
    if cv_ptr.image.channels ≠ 3 then
      let image ← cvtColor k cv_ptr.image .COLOR_GRAY2BGR
      return { cv_ptr with image := image }
    else
      return cv_ptr

/-- The `try` block of `imageCb` (lines 49-70): the publications it makes, or the exception
it throws. -/
def imageCbTry (k : PixelKernels) (target_finder : TargetFinder) (msg : Image) :
    Except Exn (List Event) := do
  let cv_ptr ← normalizeFrame k msg
  let target_features ← target_finder.findTargetFeatures cv_ptr.image
  let annotated_image ← target_finder.drawTargetFeatures cv_ptr.image target_features
  let annotated_image_cv : CvImage :=
    { header := cv_ptr.header, encoding := cv_ptr.encoding, image := annotated_image }
  return [.detected msg, .annotated annotated_image_cv.toImageMsg]

/-- `TargetDetector::imageCb` (lines 44-76): `catch (const std::runtime_error&)` logs
`ex.what()`; an exception of any other class leaves the handler. -/
def imageCb (k : PixelKernels) (target_finder : TargetFinder) (msg : Image) :
    Except Exn (List Event) :=
  match imageCbTry k target_finder msg with
  | .ok events => .ok events
  | .error ex => if ex.isRuntimeError then .ok [.error_log ex.what] else .error ex

/-- `ros::spin()` over the frames that arrive: the handler runs once per frame, in order; an
exception that leaves the handler leaves `ros::spin` and `main`, so later frames are not
processed.  Returns the events so far and the exception that ended the process, if any. -/
def spin (k : PixelKernels) (target_finder : TargetFinder) :
    List Image → List Event × Option Exn
  | [] => ([], none)
  | msg :: rest =>
    match imageCb k target_finder msg with
    | .error ex => ([], some ex)
    | .ok events =>
      let r := spin k target_finder rest
      (events ++ r.1, r.2)

/-! ## Startup -/

/-- A YAML document (`YAML::Node`). -/
inductive Yaml where
  | null
  | scalar (value : String)
  | sequence (items : List Yaml)
  | map (entries : List (String × Yaml))

/-- The node under a key (`n[key]`), if the node is a map that has the key. -/
def Yaml.find? (key : String) : Yaml → Option Yaml
  | .map entries => entries.lookup key
  | _ => none

/-- `industrial_calibration::getMember<YAML::Node>(n, key)`: throws when the key is absent. -/
def getMemberNode (n : Yaml) (key : String) : Except Exn Yaml :=
  match n.find? key with
  | some v => .ok v
  | none => .error (.runtime_error ("Failed to load parameter \x27" ++ key ++ "\x27"))

/-- `industrial_calibration::getMember<std::string>(n, key)`: throws when the key is absent or
its value is not a scalar. -/
def getMemberString (n : Yaml) (key : String) : Except Exn String :=
  match n.find? key with
  | some (.scalar v) => .ok v
  | _ => .error (.runtime_error ("Failed to load parameter \x27" ++ key ++ "\x27"))

/-- What the constructor reads from outside the process: the private parameters of the node,
the file system behind `YAML::LoadFile`, and the plugin loader with the factory it returns
(`loader_.createInstance(type)`, then `factory_->create(config)`). -/
structure Startup where
  getParam : String → Option String
  LoadFile : String → Except Exn Yaml
  createInstance : String → Except Exn (Yaml → Except Exn TargetFinder)

/-- `getParameter<std::string>(nh, key)` (lines 12-19). -/
def getParameter (env : Startup) (key : String) : Except Exn String :=
  match env.getParam key with
  | none => .error (.runtime_error ("Failed to get \x27" ++ key ++ "\x27 parameter"))
  | some val => .ok val

/-- A channel opened on the bus by `image_transport`. -/
inductive BusOp where
  | subscribe (topic : String)
  | advertise (topic : String)
  deriving DecidableEq, Repr

/-- Lines 32-36 of the constructor: load the target finder named by the configuration. -/
def loadTargetFinder (env : Startup) : Except Exn TargetFinder := do
  let file ← getParameter env "config_file"
  let config ← env.LoadFile file
  let target_finder_config ← getMemberNode config "target_finder"
  let type ← getMemberString target_finder_config "type"
  let factory ← env.createInstance type
  factory target_finder_config

/-- `TargetDetector::TargetDetector()` (lines 24-42): the channels opened on the bus, and the
detector of the constructed node or the exception thrown. -/
def construct (env : Startup) : List BusOp × Except Exn TargetFinder :=
  match loadTargetFinder env with
  | .error ex => ([], .error ex)
  | .ok target_finder =>
    ([.subscribe "image", .advertise "image_detected", .advertise "image_annotated"],
      .ok target_finder)

/-- The outcome of the process: channels opened, events of the frame handler, and the
exception that ended the process, if any. -/
structure Run where
  bus : List BusOp
  events : List Event
  uncaught : Option Exn

/-- `main` (lines 89-98) with the frames that arrive while it spins. -/
def main (env : Startup) (k : PixelKernels) (frames : List Image) : Run :=
  match construct env with
  | (bus, .error ex) => { bus := bus, events := [], uncaught := some ex }
  | (bus, .ok target_finder) =>
    let r := spin k target_finder frames
    { bus := bus, events := r.1, uncaught := r.2 }

/-! ## Well-formed frames -/

/-- A structurally valid raw frame: positive dimensions, a recognized encoding with at least
one channel, and a buffer that holds one sample per pixel and channel. -/
def Image.valid (msg : Image) : Prop :=
  0 < msg.height ∧ 0 < msg.width ∧
    ∃ d cn, getCvType msg.encoding = .ok (d, cn) ∧ 0 < cn ∧
      msg.data.length = msg.height * msg.width * cn

/-- The samples of the frame are integers that its integer sample type represents (16U, 16S
or 32S for the encodings wider than 8 bits). -/
def Image.integerSamples (msg : Image) : Prop :=
  ∃ d cn, getCvType msg.encoding = .ok (d, cn) ∧ d.isFloat = false ∧
    ∀ v ∈ msg.data, ∃ n : ℤ, v = n ∧ saturate_cast d v = v

/-- Encodings the normalization step converts: the 8-bit colour, mono, Bayer and YUV
encodings, and the encodings of any other bit depth with 1 or 3 channels. -/
def Normalizable (enc : Encoding) : Prop :=
  (bitDepth enc = .ok 8 ∧ (isColor enc || isMono enc || isBayer enc || enc = .yuv422) = true) ∨
    (∃ b, bitDepth enc = .ok b ∧ b ≠ 8 ∧ (numChannels enc = .ok 1 ∨ numChannels enc = .ok 3))

/-! ## Properties of a handler call -/

/-- The exception `ex` is raised by one of the three stages of the `try` block:
normalization, detection or rendering. -/
def RaisedIn (k : PixelKernels) (tf : TargetFinder) (msg : Image) (ex : Exn) : Prop :=
  normalizeFrame k msg = .error ex ∨
    ∃ cv, normalizeFrame k msg = .ok cv ∧
      (tf.findTargetFeatures cv.image = .error ex ∨
        ∃ feats, tf.findTargetFeatures cv.image = .ok feats ∧
          tf.drawTargetFeatures cv.image feats = .error ex)

/-- No stage fails on the frame. -/
def Succeeds (k : PixelKernels) (tf : TargetFinder) (msg : Image) : Prop :=
  ∃ cv feats ann, normalizeFrame k msg = .ok cv ∧
    tf.findTargetFeatures cv.image = .ok feats ∧
    tf.drawTargetFeatures cv.image feats = .ok ann

/-- The frame is normalized and `findTargetFeatures` raises `ex` on its canonical frame. -/
def DetectionFails (k : PixelKernels) (tf : TargetFinder) (msg : Image) (ex : Exn) : Prop :=
  ∃ cv, normalizeFrame k msg = .ok cv ∧ tf.findTargetFeatures cv.image = .error ex

/-- The messages published on the "detected" output, in order. -/
def detectedMsgs (events : List Event) : List Image :=
  events.filterMap (fun e => match e with | .detected m => some m | _ => none)

/-- The messages published on the "annotated" output, in order. -/
def annotatedMsgs (events : List Event) : List Image :=
  events.filterMap (fun e => match e with | .annotated m => some m | _ => none)

/-! ## Concrete frames and detectors used to exercise the definitions -/

/-- Kernels that replicate grey samples and rescale floating-point samples without rounding;
any choice works for the frames below. -/
def kernels0 : PixelKernels :=
  { demosaic := fun _ m => m.data.flatMap (fun v => [v, v, v]),
    uyvy := fun m => m.data.flatMap (fun v => [v, v, v]),
    normalizeFloat := fun src a b v =>
      v * ((max a b - min a b) * (1 / ((minMaxIdx src).2 - (minMaxIdx src).1)))
        + (min a b - (minMaxIdx src).1
          * ((max a b - min a b) * (1 / ((minMaxIdx src).2 - (minMaxIdx src).1)))) }

def header0 : Header := { seq := 7, stamp := 1000, frame_id := "camera" }

/-- A 1x1 bgr8 frame. -/
def frameBGR8 : Image :=
  { header := header0, height := 1, width := 1, encoding := .bgr8, data := [10, 20, 30] }

/-- A 1x2 mono16 frame with samples 1000 and 5000. -/
def frameMono16 : Image :=
  { header := header0, height := 1, width := 2, encoding := .mono16, data := [1000, 5000] }

/-- A 2x1 mono8 frame. -/
def frameMono8 : Image :=
  { header := header0, height := 2, width := 1, encoding := .mono8, data := [3, 4] }

/-- A 1x1 frame tagged with the generic encoding 8UC1. -/
def frame8UC1 : Image :=
  { header := header0, height := 1, width := 1, encoding := .generic .CV_8U 1, data := [5] }

/-- A 1x1 rgba16 frame whose four samples all equal 7. -/
def frameRGBA16 : Image :=
  { header := header0, height := 1, width := 1, encoding := .rgba16, data := [7, 7, 7, 7] }

/-- A 1x2 64FC1 frame with samples 0 and 2^-53. -/
def frame64F : Image :=
  { header := header0, height := 1, width := 2, encoding := .generic .CV_64F 1,
    data := [0, 1 / 9007199254740992] }

/-- The canonical frame of `frameBGR8`. -/
def canonicalBGR8 : CvImage :=
  { header := header0, encoding := .bgr8,
    image := { rows := 1, cols := 1, depth := .CV_8U, channels := 3, data := [10, 20, 30] } }

/-- The canonical frame of `frameMono8`: each grey sample three times. -/
def canonicalMono8 : CvImage :=
  { header := header0, encoding := .bgr8,
    image := { rows := 2, cols := 1, depth := .CV_8U, channels := 3,
               data := [3, 3, 3, 4, 4, 4] } }

/-- A configuration whose `target_finder` section has parameters but no `type` field. -/
def configNoType : Yaml :=
  .map [("target_finder", .map [("rows", .scalar "10"), ("cols", .scalar "10")])]

/-- A detector that finds no feature and draws nothing on the image. -/
def finderOk : TargetFinder :=
  { findTargetFeatures := fun _ => .ok [],
    drawTargetFeatures := fun image _ => .ok image }

/-- A detector that throws `ex` on images with `rows` rows and behaves as `finderOk` on the
others. -/
def finderRejecting (rows : Nat) (ex : Exn) : TargetFinder :=
  { findTargetFeatures := fun image => if image.rows = rows then .error ex else .ok [],
    drawTargetFeatures := fun image _ => .ok image }

/-- A startup environment in which the parameter `config_file` names a file that holds
`configNoType`, and every plugin name resolves to a factory. -/
def startupNoType (tf : TargetFinder) : Startup :=
  { getParam := fun key => if key = "config_file" then some "target.yaml" else none,
    LoadFile := fun _ => .ok configNoType,
    createInstance := fun _ => .ok (fun _ => .ok tf) }


/-! ## The normalization step -/

/-- The header of the `CvImage` returned by `toCvCopy` is the header of the message. -/
theorem toCvCopy_header (k : PixelKernels) (msg : Image) (b : Bool) (cv : CvImage)
    (h : toCvCopy k msg b = .ok cv) : cv.header = msg.header := by
  unfold toCvCopy at h
  simp only [bind, Except.bind, pure, Except.pure] at h
  split at h
  · exact absurd h (by simp)
  · split at h
    · cases h; rfl
    · split at h
      · exact absurd h (by simp)
      · split at h
        · exact absurd h (by simp)
        · split at h
          · exact absurd h (by simp)
          · cases h; rfl

/-- The normalization step keeps the header of the raw frame. -/
theorem normalizeFrame_header (k : PixelKernels) (msg : Image) (cv : CvImage)
    (h : normalizeFrame k msg = .ok cv) : cv.header = msg.header := by
  unfold normalizeFrame at h
  simp only [bind, Except.bind, pure, Except.pure] at h
  split at h
  · exact absurd h (by simp)
  · split at h
    · exact toCvCopy_header k msg true cv h
    · split at h
      · exact absurd h (by simp)
      · rename_i c hc
        have hh := toCvCopy_header k msg false c hc
        split at h
        · split at h
          · exact absurd h (by simp)
          · cases h; exact hh
        · cases h; exact hh


/-! ## Single frame: what is published -/

/-- The events of a handler call that returned: either the two publications of the `try`
block or one error line. -/
theorem imageCb_ok_cases (k : PixelKernels) (tf : TargetFinder) (msg : Image)
    (events : List Event) (h : imageCb k tf msg = .ok events) :
    imageCbTry k tf msg = .ok events ∨
      ∃ ex, imageCbTry k tf msg = .error ex ∧ events = [.error_log ex.what] := by
  unfold imageCb at h
  split at h
  · rename_i evs he
    cases h
    exact Or.inl he
  · rename_i ex he
    split at h
    · cases h
      exact Or.inr ⟨ex, he, rfl⟩
    · exact absurd h (by simp)

/-- The events of a `try` block that completed: the raw frame on "detected", then the
annotated image under the header and encoding of the canonical frame. -/
theorem imageCbTry_ok (k : PixelKernels) (tf : TargetFinder) (msg : Image)
    (events : List Event) (h : imageCbTry k tf msg = .ok events) :
    ∃ cv feats ann, normalizeFrame k msg = .ok cv ∧
      tf.findTargetFeatures cv.image = .ok feats ∧
      tf.drawTargetFeatures cv.image feats = .ok ann ∧
      events = [.detected msg,
        .annotated (CvImage.toImageMsg
          { header := cv.header, encoding := cv.encoding, image := ann })] := by
  unfold imageCbTry at h
  simp only [bind, Except.bind, pure, Except.pure] at h
  split at h
  · exact absurd h (by simp)
  · rename_i cv hcv
    split at h
    · exact absurd h (by simp)
    · rename_i feats hf
      split at h
      · exact absurd h (by simp)
      · rename_i ann ha
        cases h
        exact ⟨cv, feats, ann, hcv, hf, ha, rfl⟩

/-- C3. Header propagation: every annotated message that `imageCb` publishes for a raw frame,
on either branch of the normalization, carries the header (sequence number, timestamp,
frame id) of that raw frame. -/
theorem annotated_header_eq (k : PixelKernels) (tf : TargetFinder) (msg : Image)
    (events : List Event) (a : Image)
    (h : imageCb k tf msg = .ok events) (ha : Event.annotated a ∈ events) :
    a.header = msg.header := by
  rcases imageCb_ok_cases k tf msg events h with ht | ⟨ex, _, he⟩
  · obtain ⟨cv, feats, ann, hcv, _, _, hev⟩ := imageCbTry_ok k tf msg events ht
    subst hev
    simp at ha
    subst ha
    exact normalizeFrame_header k msg cv hcv
  · subst he
    simp at ha

/-- Rounding an integer leaves it unchanged. -/
theorem cvRound_intCast (n : ℤ) : cvRound (n : ℚ) = n := by
  simp [cvRound]

theorem cvRound_zero : cvRound 0 = 0 := by simpa using cvRound_intCast 0

theorem cvRound_255 : cvRound 255 = 255 := by simpa using cvRound_intCast 255

/-- The canonical frame of `frameMono16`: 1000 goes to 0 and 5000 to 255, each grey sample
three times. -/
theorem normalizeFrame_frameMono16 :
    normalizeFrame kernels0 frameMono16 =
      .ok { header := header0, encoding := .bgr8,
            image := { rows := 1, cols := 2, depth := .CV_8U, channels := 3,
                       data := [0, 0, 0, 255, 255, 255] } } := by
  simp [normalizeFrame, frameMono16, bitDepth, toCvCopy, matFromImage, getCvType, bind,
    Except.bind, pure, Except.pure, normalize, Mat.convertTo, cvtColor, ColorCode.scn,
    minMaxIdx, DBL_EPSILON, saturate_cast, clamp, Depth.isFloat]
  norm_num [cvRound_zero, cvRound_255]

/-- The handler on `frameMono16` with a detector that succeeds: both publications. -/
theorem imageCb_frameMono16 :
    imageCb kernels0 finderOk frameMono16 =
      .ok [.detected frameMono16,
           .annotated { header := header0, height := 1, width := 2, encoding := .bgr8,
                        data := [0, 0, 0, 255, 255, 255] }] := by
  simp [imageCb, imageCbTry, normalizeFrame_frameMono16, finderOk, bind, Except.bind, pure,
    Except.pure, CvImage.toImageMsg]

/-- Witness of C3 on the higher-bit-depth branch: the annotated message published for
`frameMono16` carries its header. -/
theorem annotated_header_eq_witness :
    imageCb kernels0 finderOk frameMono16 =
        .ok [.detected frameMono16,
             .annotated { header := header0, height := 1, width := 2, encoding := .bgr8,
                          data := [0, 0, 0, 255, 255, 255] }] ∧
      header0 = frameMono16.header :=
  ⟨imageCb_frameMono16,
    annotated_header_eq kernels0 finderOk frameMono16 _
      { header := header0, height := 1, width := 2, encoding := .bgr8,
        data := [0, 0, 0, 255, 255, 255] } imageCb_frameMono16 (by simp)⟩

/-- C4. Every message that `imageCb` publishes on the "detected" output is the raw frame it
received, equal in header, dimensions, encoding tag and pixel buffer; the rescale of the
higher-bit-depth branch and the annotation act on the copy made by `toCvCopy`. -/
theorem detected_is_raw_frame (k : PixelKernels) (tf : TargetFinder) (msg : Image)
    (events : List Event) (d : Image)
    (h : imageCb k tf msg = .ok events) (hd : Event.detected d ∈ events) : d = msg := by
  rcases imageCb_ok_cases k tf msg events h with ht | ⟨ex, _, he⟩
  · obtain ⟨cv, feats, ann, _, _, _, hev⟩ := imageCbTry_ok k tf msg events ht
    subst hev
    simpa using hd
  · subst he
    simp at hd

/-- Witness of C4 on the higher-bit-depth branch, where the canonical copy is rescaled. -/
theorem detected_is_raw_frame_witness :
    (∃ events, imageCb kernels0 finderOk frameMono16 = .ok events ∧
      Event.detected frameMono16 ∈ events) ∧ frameMono16 = frameMono16 :=
  ⟨⟨_, imageCb_frameMono16, by simp⟩,
    detected_is_raw_frame kernels0 finderOk frameMono16 _ frameMono16 imageCb_frameMono16
      (by simp)⟩

/-- C10. Normalization is the identity on bgr8 input: a bgr8 frame whose buffer matches its
dimensions yields a canonical frame with the same header, dimensions, encoding tag and
samples, as 8-bit 3-channel data; no rescale and no channel reordering takes place. -/
theorem normalizeFrame_bgr8 (k : PixelKernels) (msg : Image)
    (henc : msg.encoding = .bgr8) (hlen : msg.data.length = msg.height * msg.width * 3) :
    normalizeFrame k msg =
      .ok { header := msg.header, encoding := .bgr8,
            image := { rows := msg.height, cols := msg.width, depth := .CV_8U, channels := 3,
                       data := msg.data } } := by
  simp [normalizeFrame, henc, bitDepth, toCvCopy, matFromImage, getCvType, hlen, bind,
    Except.bind, pure, Except.pure]

/-- Witness of C10 on a 1x1 bgr8 frame. -/
theorem normalizeFrame_bgr8_witness :
    normalizeFrame kernels0 frameBGR8 =
      .ok { header := header0, encoding := .bgr8,
            image := { rows := 1, cols := 1, depth := .CV_8U, channels := 3,
                       data := [10, 20, 30] } } :=
  normalizeFrame_bgr8 kernels0 frameBGR8 rfl rfl

/-! ## The catch clause -/

/-- The `try` block raises exactly the exceptions of its three stages. -/
theorem imageCbTry_error_of_raisedIn (k : PixelKernels) (tf : TargetFinder) (msg : Image)
    (ex : Exn) (h : RaisedIn k tf msg ex) : imageCbTry k tf msg = .error ex := by
  unfold imageCbTry
  simp only [bind, Except.bind, pure, Except.pure]
  rcases h with h | ⟨cv, hcv, h | ⟨feats, hf, hd⟩⟩
  · rw [h]
  · rw [hcv]; simp only []; rw [h]
  · rw [hcv]; simp only []; rw [hf]; simp only []; rw [hd]

/-- The handler on a frame on which no stage fails: the two publications. -/
theorem imageCb_of_succeeds (k : PixelKernels) (tf : TargetFinder) (msg : Image)
    (h : Succeeds k tf msg) :
    ∃ a, imageCb k tf msg = .ok [.detected msg, .annotated a] := by
  obtain ⟨cv, feats, ann, hcv, hf, hd⟩ := h
  refine ⟨CvImage.toImageMsg { header := cv.header, encoding := cv.encoding, image := ann }, ?_⟩
  unfold imageCb imageCbTry
  simp only [bind, Except.bind, pure, Except.pure]
  rw [hcv]; simp only []; rw [hf]; simp only []; rw [hd]

/-- The handler on an exception that the catch clause matches: one error line. -/
theorem imageCb_of_caught (k : PixelKernels) (tf : TargetFinder) (msg : Image) (ex : Exn)
    (h : imageCbTry k tf msg = .error ex) (hr : ex.isRuntimeError = true) :
    imageCb k tf msg = .ok [.error_log ex.what] := by
  unfold imageCb
  rw [h]
  simp [hr]

/-- The handler on an exception that the catch clause does not match: it leaves. -/
theorem imageCb_of_uncaught (k : PixelKernels) (tf : TargetFinder) (msg : Image) (ex : Exn)
    (h : imageCbTry k tf msg = .error ex) (hr : ex.isRuntimeError = false) :
    imageCb k tf msg = .error ex := by
  unfold imageCb
  rw [h]
  simp [hr]

/-- C1, counterexample. A detector that raises `cv::Exception`, which does not derive from
`std::runtime_error`: the exception leaves `imageCb`. -/
theorem imageCb_cv_exception_escapes :
    RaisedIn kernels0 (finderRejecting 1 (.cv_Exception "findChessboardCorners failed"))
        frameBGR8 (.cv_Exception "findChessboardCorners failed") ∧
      imageCb kernels0 (finderRejecting 1 (.cv_Exception "findChessboardCorners failed"))
        frameBGR8 = .error (.cv_Exception "findChessboardCorners failed") :=
  ⟨Or.inr ⟨canonicalBGR8,
    rfl, Or.inl rfl⟩, rfl⟩

/-- C1, amended. A failure raised in normalization, detection or rendering whose class is
`std::runtime_error` or derives from it (`cv_bridge::Exception`) is caught inside `imageCb`
and reported with its `what()` text, nothing is published and `imageCb` returns normally; a
failure of any other class (`cv::Exception` among them) leaves `imageCb`. -/
theorem imageCb_catches_runtime_error (k : PixelKernels) (tf : TargetFinder) (msg : Image)
    (ex : Exn) (h : RaisedIn k tf msg ex) :
    (ex.isRuntimeError = true → imageCb k tf msg = .ok [.error_log ex.what]) ∧
      (ex.isRuntimeError = false → imageCb k tf msg = .error ex) :=
  ⟨imageCb_of_caught k tf msg ex (imageCbTry_error_of_raisedIn k tf msg ex h),
    imageCb_of_uncaught k tf msg ex (imageCbTry_error_of_raisedIn k tf msg ex h)⟩

/-- Witness of C1 amended: cv_bridge refuses to convert an 8UC1 frame to bgr8, the handler
logs the refusal and returns. -/
theorem imageCb_catches_runtime_error_witness :
    RaisedIn kernels0 finderOk frame8UC1
        (.cv_bridge_Exception "source is not a color format. but [bgr8] is") ∧
      imageCb kernels0 finderOk frame8UC1 =
        .ok [.error_log "source is not a color format. but [bgr8] is"] :=
  ⟨Or.inl rfl,
    (imageCb_catches_runtime_error kernels0 finderOk frame8UC1
      (.cv_bridge_Exception "source is not a color format. but [bgr8] is")
      (Or.inl rfl)).1 rfl⟩

/-! ## Sequences of frames -/

/-- Spinning over a frame the handler returns from, then the rest. -/
theorem spin_cons_ok (k : PixelKernels) (tf : TargetFinder) (msg : Image) (rest : List Image)
    (events : List Event) (h : imageCb k tf msg = .ok events) :
    spin k tf (msg :: rest) = (events ++ (spin k tf rest).1, (spin k tf rest).2) := by
  simp [spin, h]

/-- Frames on which no stage fails are all handled; the process keeps spinning. -/
theorem spin_succeeds (k : PixelKernels) (tf : TargetFinder) (frames : List Image)
    (h : ∀ m ∈ frames, Succeeds k tf m) :
    (spin k tf frames).2 = none ∧ detectedMsgs (spin k tf frames).1 = frames ∧
      (annotatedMsgs (spin k tf frames).1).length = frames.length := by
  induction frames with
  | nil => simp [spin, detectedMsgs, annotatedMsgs]
  | cons m rest ih =>
    obtain ⟨a, ha⟩ := imageCb_of_succeeds k tf m (h m (by simp))
    obtain ⟨h1, h2, h3⟩ := ih (fun x hx => h x (by simp [hx]))
    rw [spin_cons_ok k tf m rest _ ha]
    refine ⟨h1, ?_, ?_⟩
    · simp only [detectedMsgs] at h2 ⊢
      simp [h2]
    · simp only [annotatedMsgs] at h3 ⊢
      simp [h3]

/-- Spinning over two batches of frames when the first batch ends without an uncaught
exception: the second batch is handled as from a fresh start. -/
theorem spin_append (k : PixelKernels) (tf : TargetFinder) (pre rest : List Image)
    (h : (spin k tf pre).2 = none) :
    spin k tf (pre ++ rest) = ((spin k tf pre).1 ++ (spin k tf rest).1, (spin k tf rest).2) := by
  induction pre with
  | nil => simp [spin]
  | cons m pre ih =>
    cases hm : imageCb k tf m with
    | error ex => simp [spin, hm] at h
    | ok events =>
      rw [spin_cons_ok k tf m pre _ hm] at h
      have ih2 := ih h
      rw [List.cons_append, spin_cons_ok k tf m (pre ++ rest) _ hm,
        spin_cons_ok k tf m pre _ hm, ih2]
      simp

/-- C2, counterexample. Two frames, the detector raises `cv::Exception` on the first only:
the exception leaves the handler and ends `ros::spin`, so the second frame is never
handled and nothing is published, instead of one publication per output. -/
theorem spin_detection_failure_not_isolated :
    DetectionFails kernels0 (finderRejecting 2 (.cv_Exception "no target")) frameMono8
        (.cv_Exception "no target") ∧
      Succeeds kernels0 (finderRejecting 2 (.cv_Exception "no target")) frameBGR8 ∧
      (detectedMsgs (spin kernels0 (finderRejecting 2 (.cv_Exception "no target"))
        [frameMono8, frameBGR8]).1).length = 0 ∧
      (annotatedMsgs (spin kernels0 (finderRejecting 2 (.cv_Exception "no target"))
        [frameMono8, frameBGR8]).1).length = 0 ∧
      (spin kernels0 (finderRejecting 2 (.cv_Exception "no target"))
        [frameMono8, frameBGR8]).2 = some (.cv_Exception "no target") :=
  ⟨⟨canonicalMono8, rfl, rfl⟩,
    ⟨canonicalBGR8, [], _, rfl, rfl, rfl⟩,
    rfl, rfl, rfl⟩

/-- C2, amended. Failure isolation for failures the catch clause matches: in a sequence of
N frames in which `findTargetFeatures` raises a `std::runtime_error` (or a class derived from
it) on exactly one frame and no other stage fails on any frame, the process keeps spinning,
the "detected" output receives exactly the other N-1 frames in order, the "annotated" output
receives exactly N-1 messages, the failing frame produces one error line and no publication,
and the frames after it are handled as from a fresh start. -/
theorem spin_isolates_runtime_error (k : PixelKernels) (tf : TargetFinder)
    (pre post : List Image) (bad : Image) (ex : Exn)
    (hpre : ∀ m ∈ pre, Succeeds k tf m) (hpost : ∀ m ∈ post, Succeeds k tf m)
    (hbad : DetectionFails k tf bad ex) (hr : ex.isRuntimeError = true) :
    (spin k tf (pre ++ bad :: post)).2 = none ∧
      detectedMsgs (spin k tf (pre ++ bad :: post)).1 = pre ++ post ∧
      (detectedMsgs (spin k tf (pre ++ bad :: post)).1).length
        = (pre ++ bad :: post).length - 1 ∧
      (annotatedMsgs (spin k tf (pre ++ bad :: post)).1).length
        = (pre ++ bad :: post).length - 1 ∧
      (spin k tf (pre ++ bad :: post)).1
        = (spin k tf pre).1 ++ .error_log ex.what :: (spin k tf post).1 := by
  obtain ⟨p1, p2, p3⟩ := spin_succeeds k tf pre hpre
  obtain ⟨q1, q2, q3⟩ := spin_succeeds k tf post hpost
  obtain ⟨cv, hcv, hf⟩ := hbad
  have hb : imageCb k tf bad = .ok [.error_log ex.what] :=
    imageCb_of_caught k tf bad ex
      (imageCbTry_error_of_raisedIn k tf bad ex (Or.inr ⟨cv, hcv, Or.inl hf⟩)) hr
  rw [spin_append k tf pre (bad :: post) p1, spin_cons_ok k tf bad post _ hb]
  simp only [detectedMsgs, annotatedMsgs] at p2 p3 q2 q3 ⊢
  refine ⟨q1, ?_, ?_, ?_, ?_⟩
  · simp [p2, q2]
  · simp [p2, q2]
  · simp [p3, q3]
  · simp

/-- Witness of C2 amended: three frames, the detector raises a `std::runtime_error` on the
second; the first and third frames are published. -/
theorem spin_isolates_runtime_error_witness :
    (spin kernels0 (finderRejecting 2 (.runtime_error "no target"))
        ([frameBGR8] ++ frameMono8 :: [frameBGR8])).2 = none ∧
      detectedMsgs (spin kernels0 (finderRejecting 2 (.runtime_error "no target"))
        ([frameBGR8] ++ frameMono8 :: [frameBGR8])).1 = [frameBGR8] ++ [frameBGR8] :=
  have hs : ∀ m ∈ [frameBGR8],
      Succeeds kernels0 (finderRejecting 2 (.runtime_error "no target")) m := by
    intro m hm
    simp at hm
    subst hm
    exact ⟨canonicalBGR8, [], _, rfl, rfl, rfl⟩
  have h := spin_isolates_runtime_error kernels0
    (finderRejecting 2 (.runtime_error "no target")) [frameBGR8] [frameBGR8] frameMono8
    (.runtime_error "no target") hs hs
    ⟨canonicalMono8, rfl, rfl⟩ rfl
  ⟨h.1, h.2.1⟩

/-! ## Startup -/

/-- C9. Startup fatality: when the configuration document named by `config_file` loads and
its `target_finder` section has no `type` field, the constructor throws before it
subscribes and before it advertises either output, and `main` ends with that exception:
no channel is opened on the bus and no frame is handled. -/
theorem construct_fails_without_type (env : Startup) (k : PixelKernels) (frames : List Image)
    (file : String) (config target_finder_config : Yaml)
    (hparam : env.getParam "config_file" = some file)
    (hload : env.LoadFile file = .ok config)
    (hsection : config.find? "target_finder" = some target_finder_config)
    (htype : target_finder_config.find? "type" = none) :
    ∃ ex, construct env = ([], .error ex) ∧
      (main env k frames).bus = [] ∧ (main env k frames).events = [] ∧
      (main env k frames).uncaught = some ex := by
  have hl : loadTargetFinder env
      = .error (.runtime_error ("Failed to load parameter \x27" ++ "type" ++ "\x27")) := by
    simp [loadTargetFinder, getParameter, hparam, hload, getMemberNode, hsection,
      getMemberString, htype, bind, Except.bind]
  refine ⟨.runtime_error ("Failed to load parameter \x27" ++ "type" ++ "\x27"), ?_, ?_, ?_, ?_⟩
  · simp [construct, hl]
  · simp [main, construct, hl]
  · simp [main, construct, hl]
  · simp [main, construct, hl]

/-- Witness of C9: the configuration `configNoType`, with frames waiting on the input. -/
theorem construct_fails_without_type_witness :
    ∃ ex, construct (startupNoType finderOk) = ([], .error ex) ∧
      (main (startupNoType finderOk) kernels0 [frameBGR8, frameMono16]).bus = [] ∧
      (main (startupNoType finderOk) kernels0 [frameBGR8, frameMono16]).events = [] ∧
      (main (startupNoType finderOk) kernels0 [frameBGR8, frameMono16]).uncaught = some ex :=
  construct_fails_without_type (startupNoType finderOk) kernels0 [frameBGR8, frameMono16]
    "target.yaml" configNoType
    (.map [("rows", .scalar "10"), ("cols", .scalar "10")]) rfl rfl rfl rfl

/-! ## Shape of the canonical frame -/

/-- A colour conversion that succeeds returns three channels at the depth of its source. -/
theorem cvtColor_shape (k : PixelKernels) (src m : Mat) (code : ColorCode)
    (h : cvtColor k src code = .ok m) :
    m.channels = 3 ∧ m.depth = src.depth ∧ m.rows = src.rows ∧ m.cols = src.cols := by
  unfold cvtColor at h
  split at h
  · exact absurd h (by simp)
  · split at h
    · exact absurd h (by simp)
    · simp only [Except.ok.injEq] at h
      subst h
      exact ⟨rfl, rfl, rfl, rfl⟩

/-- The matrix over a message buffer has the type of the encoding and the samples of the
message. -/
theorem matFromImage_ok (msg : Image) (m : Mat) (h : matFromImage msg = .ok m) :
    ∃ d cn, getCvType msg.encoding = .ok (d, cn) ∧
      msg.data.length = msg.height * msg.width * cn ∧
      m = { rows := msg.height, cols := msg.width, depth := d, channels := cn,
            data := msg.data } := by
  unfold matFromImage at h
  simp only [bind, Except.bind, pure, Except.pure] at h
  split at h
  · exact absurd h (by simp)
  · rename_i v hv
    obtain ⟨d, cn⟩ := v
    simp only [] at h
    split at h
    · exact absurd h (by simp [throw, throwThe, MonadExceptOf.throw])
    · rename_i hlen
      simp only [Except.ok.injEq] at h
      exact ⟨d, cn, hv, by simpa using hlen, h.symm⟩

/-- The conversion loop returns 3 channels as soon as the list holds a colour conversion and
8-bit samples as soon as it holds a depth change; otherwise it keeps those of its input. -/
theorem applyConversions_shape (k : PixelKernels) (b : Nat) (codes : List Conversion) :
    ∀ (m out : Mat), applyConversions k b codes m = .ok out →
      out.channels = (if codes.any (fun c => c != .SAME_FORMAT) then 3 else m.channels) ∧
      out.depth = (if codes.any (fun c => c == .SAME_FORMAT) then .CV_8U else m.depth) := by
  induction codes with
  | nil =>
    intro m out h
    simp [applyConversions] at h
    subst h
    simp
  | cons c rest ih =>
    intro m out h
    cases c with
    | SAME_FORMAT =>
      simp only [applyConversions] at h
      obtain ⟨h1, h2⟩ := ih _ out h
      have e1 : (if b = 16 then m.convertTo .CV_8U (255 / 65535) 0
          else m.convertTo .CV_8U 1 0).channels = m.channels := by
        split <;> rfl
      have e2 : (if b = 16 then m.convertTo .CV_8U (255 / 65535) 0
          else m.convertTo .CV_8U 1 0).depth = .CV_8U := by
        split <;> rfl
      rw [e1] at h1
      rw [e2] at h2
      refine ⟨?_, ?_⟩
      · rw [h1]; simp [List.any_cons]
      · rw [h2]; simp [List.any_cons]
    | color code =>
      simp only [applyConversions] at h
      split at h
      · exact absurd h (by simp)
      · rename_i image2 hc
        obtain ⟨c1, c2, _, _⟩ := cvtColor_shape k m image2 code hc
        obtain ⟨h1, h2⟩ := ih _ out h
        refine ⟨?_, ?_⟩
        · rw [h1, c1]; simp [List.any_cons]
        · rw [h2, c2]; simp [List.any_cons]

/-- The result of `toCvCopy(msg, "bgr8")` is an 8-bit 3-channel matrix tagged bgr8. -/
theorem toCvCopy_bgr8_shape (k : PixelKernels) (msg : Image) (cv : CvImage)
    (h : toCvCopy k msg true = .ok cv) :
    cv.image.channels = 3 ∧ cv.image.depth = .CV_8U ∧ cv.encoding = .bgr8 := by
  unfold toCvCopy at h
  simp only [bind, Except.bind, pure, Except.pure] at h
  cases hm : matFromImage msg with
  | error e => simp [hm] at h
  | ok m =>
    obtain ⟨d, cn, hty, _, hmeq⟩ := matFromImage_ok msg m hm
    simp only [hm] at h
    by_cases he : msg.encoding = .bgr8
    · simp [he] at h
      subst h
      simp [he, getCvType] at hty
      simp [hmeq, he, ← hty.1, ← hty.2]
    · simp [he] at h
      cases hc : getConversionCode msg.encoding with
      | error e => simp [hc] at h
      | ok codes =>
        cases hb : bitDepth msg.encoding with
        | error e => simp [hc, hb] at h
        | ok b =>
          cases ha : applyConversions k b codes m with
          | error e => simp [hc, hb, ha] at h
          | ok out =>
            simp [hc, hb, ha] at h
            subst h
            obtain ⟨a1, a2⟩ := applyConversions_shape k b codes m out ha
            subst hmeq
            cases henc : msg.encoding <;>
              simp [henc, getConversionCode, getCvType, bitDepth, isColor, isMono, isBayer]
                at hc hty hb he <;>
              subst hc <;> simp_all

/-- Rescaling keeps the dimensions, the depth, the channel count and the number of samples;
the quantization to 8 bits that follows changes the depth only. -/
theorem normalize_convertTo_shape (k : PixelKernels) (m : Mat) (a b : ℚ) :
    ((normalize k m a b).convertTo .CV_8U 1 0).channels = m.channels ∧
      ((normalize k m a b).convertTo .CV_8U 1 0).rows = m.rows ∧
      ((normalize k m a b).convertTo .CV_8U 1 0).cols = m.cols ∧
      ((normalize k m a b).convertTo .CV_8U 1 0).depth = .CV_8U ∧
      ((normalize k m a b).convertTo .CV_8U 1 0).data.length = m.data.length := by
  unfold normalize
  simp only []
  split <;> simp [Mat.convertTo]

/-- The higher-bit-depth branch of the normalization (lines 55-60) on a well-formed
message: rescale, quantize, retag, and convert grey to BGR unless there are 3 channels. -/
theorem normalizeFrame_high (k : PixelKernels) (msg : Image) (b : Nat) (m : Mat)
    (hb : bitDepth msg.encoding = .ok b) (h8 : b ≠ 8) (hm : matFromImage msg = .ok m) :
    normalizeFrame k msg =
      if m.channels ≠ 3 then
        match cvtColor k ((normalize k m 0 255).convertTo .CV_8U 1 0) .COLOR_GRAY2BGR with
        | .ok image => .ok { header := msg.header, encoding := .bgr8, image := image }
        | .error e => .error e
      else
        .ok { header := msg.header, encoding := .bgr8,
              image := (normalize k m 0 255).convertTo .CV_8U 1 0 } := by
  unfold normalizeFrame toCvCopy
  simp only [bind, Except.bind, pure, Except.pure, hb, hm, h8]
  simp only [Bool.not_false, Bool.true_or, if_true, if_false]
  have hch : ((normalize k m 0 255).convertTo .CV_8U 1 0).channels = m.channels :=
    (normalize_convertTo_shape k m 0 255).1
  simp only [hch]
  split
  · split <;> simp_all
  · rfl

/-- Whatever the encoding of the raw frame, a canonical frame that the normalization step
yields has exactly 3 channels of 8-bit samples and is tagged bgr8. -/
theorem normalizeFrame_shape (k : PixelKernels) (msg : Image) (cv : CvImage)
    (h : normalizeFrame k msg = .ok cv) :
    cv.image.channels = 3 ∧ cv.image.depth = .CV_8U ∧ cv.encoding = .bgr8 := by
  cases hb : bitDepth msg.encoding with
  | error e => simp [normalizeFrame, hb, bind, Except.bind] at h
  | ok b =>
    by_cases h8 : b = 8
    · have h2 : toCvCopy k msg true = .ok cv := by
        simpa [normalizeFrame, hb, h8, bind, Except.bind] using h
      exact toCvCopy_bgr8_shape k msg cv h2
    · cases hm : matFromImage msg with
      | error e =>
        simp [normalizeFrame, toCvCopy, hb, h8, hm, bind, Except.bind] at h
      | ok m =>
        rw [normalizeFrame_high k msg b m hb h8 hm] at h
        split at h
        · split at h
          · rename_i image hc
            simp only [Except.ok.injEq] at h
            subst h
            obtain ⟨c1, c2, _, _⟩ := cvtColor_shape k _ image _ hc
            exact ⟨c1, by rw [c2]; exact (normalize_convertTo_shape k m 0 255).2.2.2.1, rfl⟩
          · exact absurd h (by simp)
        · rename_i h3
          simp only [Except.ok.injEq] at h
          subst h
          exact ⟨by simpa [(normalize_convertTo_shape k m 0 255).1] using h3,
            (normalize_convertTo_shape k m 0 255).2.2.2.1, rfl⟩

/-! ## Totality of the normalization step -/

/-- The channel count of the matrix type is the channel count of the encoding. -/
theorem numChannels_of_getCvType (enc : Encoding) (d : Depth) (cn : Nat)
    (h : getCvType enc = .ok (d, cn)) : numChannels enc = .ok cn := by
  cases enc <;> simp [getCvType, numChannels] at h ⊢ <;> simp [h]

/-- A valid frame has a matrix, and its buffer is not empty. -/
theorem matFromImage_of_valid (msg : Image) (hv : msg.valid) :
    ∃ d cn, getCvType msg.encoding = .ok (d, cn) ∧ msg.data ≠ [] ∧
      matFromImage msg = .ok { rows := msg.height, cols := msg.width, depth := d,
                               channels := cn, data := msg.data } := by
  obtain ⟨hh, hw, d, cn, hty, hcn, hlen⟩ := hv
  refine ⟨d, cn, hty, ?_, ?_⟩
  · intro he
    rw [he] at hlen
    have : 0 < msg.height * msg.width * cn := Nat.mul_pos (Nat.mul_pos hh hw) hcn
    simp at hlen
    omega
  · simp [matFromImage, hty, hlen, bind, Except.bind, pure, Except.pure]

/-- C5, counterexample. A valid 1x1 frame tagged 8UC1 (8 bits, 1 channel): cv_bridge refuses
the conversion to bgr8, so the normalization step raises instead of yielding a frame. -/
theorem normalizeFrame_8UC1_raises :
    frame8UC1.valid ∧ bitDepth frame8UC1.encoding = .ok 8 ∧
      numChannels frame8UC1.encoding = .ok 1 ∧
      normalizeFrame kernels0 frame8UC1 =
        .error (.cv_bridge_Exception "source is not a color format. but [bgr8] is") :=
  ⟨⟨by decide, by decide, .CV_8U, 1, rfl, by decide, rfl⟩, rfl, rfl, rfl⟩

/-- The 8-bit branch completes on the 8-bit colour, mono, Bayer and YUV encodings. -/
theorem toCvCopy_bgr8_total (k : PixelKernels) (msg : Image) (hv : msg.valid)
    (h8 : bitDepth msg.encoding = .ok 8)
    (hc : (isColor msg.encoding || isMono msg.encoding || isBayer msg.encoding
      || msg.encoding = .yuv422) = true) :
    ∃ cv, toCvCopy k msg true = .ok cv := by
  obtain ⟨d, cn, hty, hne, hm⟩ := matFromImage_of_valid msg hv
  unfold toCvCopy
  simp only [bind, Except.bind, pure, Except.pure, hm]
  cases henc : msg.encoding <;>
    simp [henc, bitDepth, isColor, isMono, isBayer, getCvType] at h8 hc hty <;>
    simp [getConversionCode, isColor, isMono, isBayer, bitDepth, applyConversions, cvtColor,
      ColorCode.scn, hne, ← hty.2]

/-- The higher-bit-depth branch completes on valid frames with 1 or 3 channels. -/
theorem normalizeFrame_high_total (k : PixelKernels) (msg : Image) (hv : msg.valid) (b : Nat)
    (hb : bitDepth msg.encoding = .ok b) (h8 : b ≠ 8)
    (hcn : numChannels msg.encoding = .ok 1 ∨ numChannels msg.encoding = .ok 3) :
    ∃ cv, normalizeFrame k msg = .ok cv := by
  obtain ⟨d, cn, hty, hne, hm⟩ := matFromImage_of_valid msg hv
  have hnc := numChannels_of_getCvType msg.encoding d cn hty
  rw [normalizeFrame_high k msg b _ hb h8 hm]
  obtain ⟨hQch, _, _, _, hQlen⟩ :=
    normalize_convertTo_shape k ⟨msg.height, msg.width, d, cn, msg.data⟩ 0 255
  generalize (normalize k
    ⟨msg.height, msg.width, d, cn, msg.data⟩ 0 255).convertTo .CV_8U 1 0 = Q at hQch hQlen ⊢
  have hq : Q.data ≠ [] := by
    intro he
    rw [he] at hQlen
    exact hne (List.length_eq_zero.mp hQlen.symm)
  rw [hnc] at hcn
  simp only [Except.ok.injEq] at hcn
  simp only [] at hQch
  rcases hcn with h1 | h3
  · subst h1
    simp [cvtColor, ColorCode.scn, hq, hQch]
  · subst h3
    simp [hQch]

/-- C5, amended. The normalization step completes and yields a canonical frame for every
structurally valid raw frame whose encoding is an 8-bit colour, mono, Bayer or YUV encoding,
or has another bit depth (16, 32 or 64 bits) and 1 or 3 channels.  On a frame tagged with a
generic 8-bit encoding (8UC<n>, 8SC<n>) it raises the `cv_bridge::Exception` with which
cv_bridge refuses the conversion to bgr8. -/
theorem normalizeFrame_total (k : PixelKernels) (msg : Image) (hv : msg.valid) :
    (Normalizable msg.encoding → ∃ cv, normalizeFrame k msg = .ok cv) ∧
      (∀ d cn, msg.encoding = .generic d cn → d.bits = 8 →
        ∃ w, normalizeFrame k msg = .error (.cv_bridge_Exception w)) := by
  constructor
  · rintro (⟨h8, hc⟩ | ⟨b, hb, h8, hcn⟩)
    · obtain ⟨cv, hcv⟩ := toCvCopy_bgr8_total k msg hv h8 hc
      exact ⟨cv, by simp [normalizeFrame, h8, hcv, bind, Except.bind]⟩
    · exact normalizeFrame_high_total k msg hv b hb h8 hcn
  · intro d cn henc hbits
    obtain ⟨d2, cn2, hty, hne, hm⟩ := matFromImage_of_valid msg hv
    refine ⟨"source is not a color format. but [bgr8] is", ?_⟩
    simp [normalizeFrame, toCvCopy, hm, henc, bitDepth, hbits, getConversionCode, isColor,
      isMono, isBayer, bind, Except.bind, pure, Except.pure]

/-- Witness of C5 amended: the valid single-channel 16-bit frame `frameMono16`. -/
theorem normalizeFrame_total_witness :
    frameMono16.valid ∧ Normalizable frameMono16.encoding ∧
      ∃ cv, normalizeFrame kernels0 frameMono16 = .ok cv :=
  have hv : frameMono16.valid := ⟨by decide, by decide, .CV_16U, 1, rfl, by decide, rfl⟩
  have hn : Normalizable frameMono16.encoding :=
    Or.inr ⟨16, rfl, by decide, Or.inl rfl⟩
  ⟨hv, hn, (normalizeFrame_total kernels0 frameMono16 hv).1 hn⟩

/-- C6. Channel invariant: for every raw frame, whatever its bit depth and channel count,
every canonical frame that the normalization step hands to `findTargetFeatures` has exactly
3 channels of 8-bit samples and is tagged bgr8; and such a frame is handed on for every
valid raw frame whose encoding is an 8-bit colour, mono, Bayer or YUV encoding or has
another bit depth and 1 or 3 channels. -/
theorem normalizeFrame_three_channels (k : PixelKernels) (msg : Image) :
    (∀ cv, normalizeFrame k msg = .ok cv →
        cv.image.channels = 3 ∧ cv.image.depth = .CV_8U ∧ cv.encoding = .bgr8) ∧
      (msg.valid → Normalizable msg.encoding →
        ∃ cv, normalizeFrame k msg = .ok cv ∧
          cv.image.channels = 3 ∧ cv.image.depth = .CV_8U ∧ cv.encoding = .bgr8) := by
  refine ⟨normalizeFrame_shape k msg, ?_⟩
  intro hv hn
  have hex : ∃ cv, normalizeFrame k msg = .ok cv := by
    rcases hn with ⟨h8, hc⟩ | ⟨b, hb, h8, hcn⟩
    · obtain ⟨cv, hcv⟩ := toCvCopy_bgr8_total k msg hv h8 hc
      exact ⟨cv, by simp [normalizeFrame, h8, hcv, bind, Except.bind]⟩
    · exact normalizeFrame_high_total k msg hv b hb h8 hcn
  obtain ⟨cv, hcv⟩ := hex
  exact ⟨cv, hcv, normalizeFrame_shape k msg cv hcv⟩

/-- Witness of C6: the single-channel 16-bit `frameMono16` and its canonical frame. -/
theorem normalizeFrame_three_channels_witness :
    frameMono16.valid ∧ Normalizable frameMono16.encoding ∧
      ∃ cv, normalizeFrame kernels0 frameMono16 = .ok cv ∧
        cv.image.channels = 3 ∧ cv.image.depth = .CV_8U ∧ cv.encoding = .bgr8 :=
  have hv : frameMono16.valid := ⟨by decide, by decide, .CV_16U, 1, rfl, by decide, rfl⟩
  have hn : Normalizable frameMono16.encoding :=
    Or.inr ⟨16, rfl, by decide, Or.inl rfl⟩
  ⟨hv, hn, (normalizeFrame_three_channels kernels0 frameMono16).2 hv hn⟩

/-! ## Min-max rescaling -/

theorem foldl_min_le (xs : List ℚ) :
    ∀ x : ℚ, xs.foldl min x ≤ x ∧ ∀ v ∈ xs, xs.foldl min x ≤ v := by
  induction xs with
  | nil => intro x; simp
  | cons y ys ih =>
    intro x
    obtain ⟨h1, h2⟩ := ih (min x y)
    simp only [List.foldl_cons, List.mem_cons]
    refine ⟨le_trans h1 (min_le_left x y), ?_⟩
    rintro v (rfl | hv)
    · exact le_trans h1 (min_le_right x v)
    · exact h2 v hv

theorem le_foldl_max (xs : List ℚ) :
    ∀ x : ℚ, x ≤ xs.foldl max x ∧ ∀ v ∈ xs, v ≤ xs.foldl max x := by
  induction xs with
  | nil => intro x; simp
  | cons y ys ih =>
    intro x
    obtain ⟨h1, h2⟩ := ih (max x y)
    simp only [List.foldl_cons, List.mem_cons]
    refine ⟨le_trans (le_max_left x y) h1, ?_⟩
    rintro v (rfl | hv)
    · exact le_trans (le_max_right x v) h1
    · exact h2 v hv

theorem foldl_min_mem (xs : List ℚ) : ∀ x : ℚ, xs.foldl min x ∈ x :: xs := by
  induction xs with
  | nil => intro x; simp
  | cons y ys ih =>
    intro x
    have h := ih (min x y)
    simp only [List.foldl_cons, List.mem_cons] at h ⊢
    rcases h with h | h
    · rcases min_choice x y with hc | hc
      · left; rw [h, hc]
      · right; left; rw [h, hc]
    · right; right; exact h

theorem foldl_max_mem (xs : List ℚ) : ∀ x : ℚ, xs.foldl max x ∈ x :: xs := by
  induction xs with
  | nil => intro x; simp
  | cons y ys ih =>
    intro x
    have h := ih (max x y)
    simp only [List.foldl_cons, List.mem_cons] at h ⊢
    rcases h with h | h
    · rcases max_choice x y with hc | hc
      · left; rw [h, hc]
      · right; left; rw [h, hc]
    · right; right; exact h

/-- The extreme samples of a non-empty matrix are samples of it and bound all of them. -/
theorem minMaxIdx_spec (m : Mat) (hne : m.data ≠ []) :
    (minMaxIdx m).1 ∈ m.data ∧ (minMaxIdx m).2 ∈ m.data ∧
      ∀ v ∈ m.data, (minMaxIdx m).1 ≤ v ∧ v ≤ (minMaxIdx m).2 := by
  unfold minMaxIdx
  cases hd : m.data with
  | nil => exact absurd hd hne
  | cons x xs =>
    simp only []
    refine ⟨foldl_min_mem xs x, foldl_max_mem xs x, ?_⟩
    intro v hv
    simp only [List.mem_cons] at hv
    rcases hv with rfl | hv
    · exact ⟨(foldl_min_le xs v).1, (le_foldl_max xs v).1⟩
    · exact ⟨(foldl_min_le xs x).2 v hv, (le_foldl_max xs x).2 v hv⟩

/-- A matrix whose samples lie in `[a, b]` and include both ends has extremes `a` and `b`. -/
theorem minMaxIdx_eq (m : Mat) (a b : ℚ) (ha : a ∈ m.data) (hb : b ∈ m.data)
    (hr : ∀ v ∈ m.data, a ≤ v ∧ v ≤ b) : minMaxIdx m = (a, b) := by
  have hne : m.data ≠ [] := List.ne_nil_of_mem ha
  obtain ⟨h1, h2, h3⟩ := minMaxIdx_spec m hne
  have e1 : (minMaxIdx m).1 = a := le_antisymm (h3 a ha).1 (hr _ h1).1
  have e2 : (minMaxIdx m).2 = b := le_antisymm (hr _ h2).2 (h3 b hb).2
  exact Prod.ext e1 e2

/-- An 8-bit sample lies in `[0, 255]`. -/
theorem saturate_cast_8U_range (x : ℚ) :
    0 ≤ saturate_cast .CV_8U x ∧ saturate_cast .CV_8U x ≤ 255 := by
  unfold saturate_cast clamp
  simp only []
  split_ifs with h1 h2
  · norm_num
  · norm_num
  · constructor
    · exact_mod_cast not_lt.mp h1
    · exact_mod_cast not_lt.mp h2

/-- The sample types wider than 8 bits represent 0 and 255. -/
theorem saturate_cast_wide (d : Depth) (h : d.bits ≠ 8) :
    saturate_cast d 0 = 0 ∧ saturate_cast d 255 = 255 := by
  cases d <;> simp [Depth.bits] at h <;>
    simp [saturate_cast, clamp, cvRound_zero, cvRound_255]

/-- The depth of the matrix of an encoding has the bit depth of the encoding. -/
theorem bits_of_getCvType (enc : Encoding) (d : Depth) (cn b : Nat)
    (h : getCvType enc = .ok (d, cn)) (hb : bitDepth enc = .ok b) : d.bits = b := by
  cases enc <;> simp [getCvType, bitDepth] at h hb <;> simp [← h.1, ← hb, Depth.bits]

/-- Two different integer samples differ by at least 1, which is more than `DBL_EPSILON`. -/
theorem spread_of_integers (data : List ℚ) (hint : ∀ v ∈ data, ∃ n : ℤ, v = n)
    (hvar : ∃ u ∈ data, ∃ v ∈ data, u ≠ v) :
    ∃ u ∈ data, ∃ v ∈ data, DBL_EPSILON < v - u := by
  obtain ⟨u, hu, v, hv, huv⟩ := hvar
  obtain ⟨n, rfl⟩ := hint u hu
  obtain ⟨m, rfl⟩ := hint v hv
  have hnm : n ≠ m := fun h => huv (by rw [h])
  have heps : DBL_EPSILON < 1 := by norm_num [DBL_EPSILON]
  rcases lt_or_gt_of_ne hnm with h | h
  · refine ⟨n, hu, m, hv, ?_⟩
    have : (1 : ℚ) ≤ (m : ℚ) - n := by
      have : n + 1 ≤ m := h
      exact_mod_cast (by omega : (1 : ℤ) ≤ m - n)
    linarith
  · refine ⟨m, hv, n, hu, ?_⟩
    have : (1 : ℚ) ≤ (n : ℚ) - m := by
      exact_mod_cast (by omega : (1 : ℤ) ≤ n - m)
    linarith

/-- Lines 56-57 on an integer matrix wider than 8 bits whose samples spread over more than
`DBL_EPSILON`: every sample goes through one map that sends the smallest sample to 0, the
largest to 255 and everything into `[0, 255]`. -/
theorem rescale_quantize (k : PixelKernels) (m : Mat) (hd : m.depth.bits ≠ 8)
    (hint : m.depth.isFloat = false)
    (hrange : ∃ u ∈ m.data, ∃ v ∈ m.data, DBL_EPSILON < v - u) :
    ∃ g : ℚ → ℚ, ((normalize k m 0 255).convertTo .CV_8U 1 0).data = m.data.map g ∧
      g (minMaxIdx m).1 = 0 ∧ g (minMaxIdx m).2 = 255 ∧ ∀ x, 0 ≤ g x ∧ g x ≤ 255 := by
  obtain ⟨u, hu, v, hv, huv⟩ := hrange
  have hne : m.data ≠ [] := List.ne_nil_of_mem hu
  obtain ⟨_, _, hb⟩ := minMaxIdx_spec m hne
  have hspread : DBL_EPSILON < (minMaxIdx m).2 - (minMaxIdx m).1 := by
    have h1 := (hb u hu).1
    have h2 := (hb v hv).2
    linarith
  have hpos : (0 : ℚ) < (minMaxIdx m).2 - (minMaxIdx m).1 := by
    have : (0 : ℚ) < DBL_EPSILON := by norm_num [DBL_EPSILON]
    linarith
  obtain ⟨s0, s255⟩ := saturate_cast_wide m.depth hd
  refine ⟨fun x => saturate_cast .CV_8U (saturate_cast m.depth
      (x * ((max 0 255 - min 0 255) * (1 / ((minMaxIdx m).2 - (minMaxIdx m).1)))
        + (min 0 255 - (minMaxIdx m).1
          * ((max 0 255 - min 0 255) * (1 / ((minMaxIdx m).2 - (minMaxIdx m).1))))) * 1 + 0),
    ?_, ?_, ?_, ?_⟩
  · simp [normalize, Mat.convertTo, hspread, hint, List.map_map, Function.comp_def]
  · have e : (minMaxIdx m).1
          * ((max 0 255 - min 0 255) * (1 / ((minMaxIdx m).2 - (minMaxIdx m).1)))
        + (min 0 255 - (minMaxIdx m).1
          * ((max 0 255 - min 0 255) * (1 / ((minMaxIdx m).2 - (minMaxIdx m).1)))) = (0 : ℚ) := by
      have : min (0 : ℚ) 255 = 0 := by norm_num
      rw [this]; ring
    simp only [e, s0]
    norm_num [saturate_cast, clamp, cvRound_zero]
  · have e : (minMaxIdx m).2
          * ((max 0 255 - min 0 255) * (1 / ((minMaxIdx m).2 - (minMaxIdx m).1)))
        + (min 0 255 - (minMaxIdx m).1
          * ((max 0 255 - min 0 255) * (1 / ((minMaxIdx m).2 - (minMaxIdx m).1)))) = (255 : ℚ) := by
      have h1 : min (0 : ℚ) 255 = 0 := by norm_num
      have h2 : max (0 : ℚ) 255 = 255 := by norm_num
      rw [h1, h2]
      field_simp
      ring
    simp only [e, s255]
    norm_num [saturate_cast, clamp, cvRound_255]
  · intro x
    exact saturate_cast_8U_range _

/-- C7, counterexample. A 64-bit single-channel frame with the two samples 0 and 2^-53: the
samples are not all equal, yet their spread does not exceed `DBL_EPSILON`, so
`cv::normalize` scales by 0 and the canonical frame is all zero; its maximum is 0, not 255. -/
theorem normalizeFrame_tiny_spread_all_zero :
    bitDepth frame64F.encoding = .ok 64 ∧ frame64F.data = [0, 1 / 9007199254740992] ∧
      (0 : ℚ) ≠ 1 / 9007199254740992 ∧
      normalizeFrame kernels0 frame64F =
        .ok { header := header0, encoding := .bgr8,
              image := { rows := 1, cols := 2, depth := .CV_8U, channels := 3,
                         data := [0, 0, 0, 0, 0, 0] } } := by
  refine ⟨rfl, rfl, by norm_num, ?_⟩
  simp [normalizeFrame, frame64F, bitDepth, Depth.bits, toCvCopy, matFromImage, getCvType,
    bind, Except.bind, pure, Except.pure, normalize, Mat.convertTo, cvtColor, ColorCode.scn,
    minMaxIdx, DBL_EPSILON, saturate_cast, clamp, Depth.isFloat]
  norm_num [cvRound_zero]
  simp

/-- C7, amended. Range property on integer samples: for every valid raw frame whose
encoding has a bit depth greater than 8, an integer sample type (16U, 16S or 32S) and 1 or 3
channels, and whose samples are integers of that type that are not all equal, the
rescale-then-quantize branch yields a canonical frame whose minimum sample is exactly 0 and
whose maximum is exactly 255: every source sample goes through one map into `[0, 255]` that
sends the source minimum to 0 and the source maximum to 255, and a grey sample is
replicated on the 3 channels. -/
theorem normalizeFrame_range (k : PixelKernels) (msg : Image) (hv : msg.valid) (b : Nat)
    (hb : bitDepth msg.encoding = .ok b) (h8 : 8 < b)
    (hcn : numChannels msg.encoding = .ok 1 ∨ numChannels msg.encoding = .ok 3)
    (hint : msg.integerSamples)
    (hvar : ∃ u ∈ msg.data, ∃ v ∈ msg.data, u ≠ v) :
    ∃ (cv : CvImage) (g : ℚ → ℚ), normalizeFrame k msg = .ok cv ∧
      minMaxIdx cv.image = (0, 255) ∧
      (∀ m, matFromImage msg = .ok m → g (minMaxIdx m).1 = 0 ∧ g (minMaxIdx m).2 = 255) ∧
      (∀ x, 0 ≤ g x ∧ g x ≤ 255) ∧
      (numChannels msg.encoding = .ok 1 →
        cv.image.data = (msg.data.map g).flatMap (fun v => [v, v, v])) ∧
      (numChannels msg.encoding = .ok 3 → cv.image.data = msg.data.map g) := by
  obtain ⟨d, cn, hty, hne, hm⟩ := matFromImage_of_valid msg hv
  obtain ⟨d2, cn2, hty2, hfl, hsamples⟩ := hint
  rw [hty] at hty2
  simp only [Except.ok.injEq, Prod.mk.injEq] at hty2
  obtain ⟨rfl, rfl⟩ := hty2
  have hrange : ∃ u ∈ msg.data, ∃ v ∈ msg.data, DBL_EPSILON < v - u :=
    spread_of_integers msg.data (fun v hv => (hsamples v hv).imp fun _ h => h.1) hvar
  have hbits := bits_of_getCvType msg.encoding d cn b hty hb
  have hb8 : b ≠ 8 := by omega
  have hnc := numChannels_of_getCvType msg.encoding d cn hty
  obtain ⟨g, hg, g0, g255, grange⟩ := rescale_quantize k
    ⟨msg.height, msg.width, d, cn, msg.data⟩ (by simpa [hbits] using hb8) hfl hrange
  obtain ⟨hmin, hmax, _⟩ := minMaxIdx_spec
    ⟨msg.height, msg.width, d, cn, msg.data⟩ hne
  have h0 : (0 : ℚ) ∈ msg.data.map g := g0 ▸ List.mem_map_of_mem g hmin
  have h255 : (255 : ℚ) ∈ msg.data.map g := g255 ▸ List.mem_map_of_mem g hmax
  have hall : ∀ v ∈ msg.data.map g, (0 : ℚ) ≤ v ∧ v ≤ 255 := by
    intro v hv
    obtain ⟨x, _, rfl⟩ := List.mem_map.mp hv
    exact grange x
  have hsrc : ∀ m, matFromImage msg = .ok m →
      g (minMaxIdx m).1 = 0 ∧ g (minMaxIdx m).2 = 255 := by
    intro m hm2
    rw [hm] at hm2
    cases hm2
    exact ⟨g0, g255⟩
  rw [normalizeFrame_high k msg b _ hb hb8 hm]
  generalize hQ : (normalize k
    ⟨msg.height, msg.width, d, cn, msg.data⟩ 0 255).convertTo .CV_8U 1 0 = Q at hg ⊢
  have hQch : Q.channels = cn := by
    rw [← hQ]; exact (normalize_convertTo_shape k _ 0 255).1
  rw [hnc] at hcn ⊢
  simp only [Except.ok.injEq] at hcn ⊢
  rcases hcn with h1 | h3
  · subst h1
    have hq : Q.data ≠ [] := by rw [hg]; simpa using hne
    refine ⟨{ header := msg.header, encoding := .bgr8,
              image := { Q with channels := 3, data := Q.data.flatMap (fun v => [v, v, v]) } },
      g, ?_, ?_, hsrc, grange, ?_, ?_⟩
    · simp [cvtColor, hq, ColorCode.scn, hQch]
    · apply minMaxIdx_eq
      · simpa [List.mem_flatMap, hg] using h0
      · simpa [List.mem_flatMap, hg] using h255
      · intro v hv
        simp only [List.mem_flatMap, hg] at hv
        obtain ⟨w, hw, hvw⟩ := hv
        have : v = w := by simpa using hvw
        subst this
        exact hall v hw
    · intro _
      simp [hg]
    · intro h
      simp at h
  · subst h3
    refine ⟨{ header := msg.header, encoding := .bgr8, image := Q }, g,
      ?_, ?_, hsrc, grange, ?_, ?_⟩
    · simp [hQch]
    · exact minMaxIdx_eq Q 0 255 (hg ▸ h0) (hg ▸ h255) (hg ▸ hall)
    · intro h
      simp at h
    · intro _
      exact hg

/-- Witness of C7 amended: `frameMono16`, samples 1000 and 5000. -/
theorem normalizeFrame_range_witness :
    frameMono16.valid ∧ bitDepth frameMono16.encoding = .ok 16 ∧
      frameMono16.integerSamples ∧
      ∃ (cv : CvImage) (g : ℚ → ℚ), normalizeFrame kernels0 frameMono16 = .ok cv ∧
        minMaxIdx cv.image = (0, 255) ∧
        (∀ m, matFromImage frameMono16 = .ok m →
          g (minMaxIdx m).1 = 0 ∧ g (minMaxIdx m).2 = 255) ∧
        (∀ x, 0 ≤ g x ∧ g x ≤ 255) ∧
        (numChannels frameMono16.encoding = .ok 1 →
          cv.image.data = (frameMono16.data.map g).flatMap (fun v => [v, v, v])) ∧
        (numChannels frameMono16.encoding = .ok 3 →
          cv.image.data = frameMono16.data.map g) :=
  have hv : frameMono16.valid := ⟨by decide, by decide, .CV_16U, 1, rfl, by decide, rfl⟩
  have hi : frameMono16.integerSamples := by
    refine ⟨.CV_16U, 1, rfl, rfl, ?_⟩
    intro v hv
    simp only [frameMono16, List.mem_cons, List.mem_singleton, List.not_mem_nil, or_false]
      at hv
    rcases hv with rfl | rfl
    · exact ⟨1000, by norm_num, by
        have h := cvRound_intCast 1000
        norm_num at h
        simp [saturate_cast, clamp, h]⟩
    · exact ⟨5000, by norm_num, by
        have h := cvRound_intCast 5000
        norm_num at h
        simp [saturate_cast, clamp, h]⟩
  ⟨hv, rfl, hi, normalizeFrame_range kernels0 frameMono16 hv 16 rfl (by decide) (Or.inl rfl) hi
    ⟨1000, by simp [frameMono16], 5000, by simp [frameMono16], by norm_num⟩⟩

/-! ## Constant frames -/

/-- Lines 56-57 on a constant matrix wider than 8 bits: `cv::normalize` scales by 0 instead
of dividing by the zero spread, and every sample becomes 0. -/
theorem rescale_constant (k : PixelKernels) (m : Mat) (hd : m.depth.bits ≠ 8) (c : ℚ)
    (hne : m.data ≠ [])
    (hc : ∀ v ∈ m.data, v = c) :
    ∀ v ∈ ((normalize k m 0 255).convertTo .CV_8U 1 0).data, v = 0 := by
  obtain ⟨x, hx⟩ := List.exists_mem_of_ne_nil m.data hne
  have hcm : c ∈ m.data := hc x hx ▸ hx
  have hmm : minMaxIdx m = (c, c) :=
    minMaxIdx_eq m c c hcm hcm (fun v hv => by rw [hc v hv]; exact ⟨le_refl c, le_refl c⟩)
  obtain ⟨s0, _⟩ := saturate_cast_wide m.depth hd
  intro v hv
  have hpos : ¬ DBL_EPSILON < (0 : ℚ) := by norm_num [DBL_EPSILON]
  simp [normalize, Mat.convertTo, hmm, hpos, s0] at hv
  obtain ⟨_, _, rfl⟩ := hv
  norm_num [saturate_cast, clamp, cvRound_zero]

/-- Degenerate input on 1 or 3 channels: a valid constant frame of bit depth other than 8
normalizes without error to an all-zero canonical frame. -/
theorem normalizeFrame_constant (k : PixelKernels) (msg : Image) (hv : msg.valid) (b : Nat)
    (hb : bitDepth msg.encoding = .ok b) (h8 : b ≠ 8)
    (hcn : numChannels msg.encoding = .ok 1 ∨ numChannels msg.encoding = .ok 3)
    (c : ℚ) (hc : ∀ v ∈ msg.data, v = c) :
    ∃ cv, normalizeFrame k msg = .ok cv ∧ ∀ v ∈ cv.image.data, v = 0 := by
  obtain ⟨d, cn, hty, hne, hm⟩ := matFromImage_of_valid msg hv
  have hbits := bits_of_getCvType msg.encoding d cn b hty hb
  have hnc := numChannels_of_getCvType msg.encoding d cn hty
  have hz := rescale_constant k ⟨msg.height, msg.width, d, cn, msg.data⟩
    (by simpa [hbits] using h8) c hne hc
  rw [normalizeFrame_high k msg b _ hb h8 hm]
  generalize hQ : (normalize k
    ⟨msg.height, msg.width, d, cn, msg.data⟩ 0 255).convertTo .CV_8U 1 0 = Q at hz ⊢
  have hQch : Q.channels = cn := by
    rw [← hQ]; exact (normalize_convertTo_shape k _ 0 255).1
  have hq : Q.data ≠ [] := by
    intro he
    have hlen := (normalize_convertTo_shape k ⟨msg.height, msg.width, d, cn, msg.data⟩
      0 255).2.2.2.2
    rw [hQ, he] at hlen
    exact hne (List.length_eq_zero.mp hlen.symm)
  rw [hnc] at hcn
  simp only [Except.ok.injEq] at hcn
  rcases hcn with h1 | h3
  · subst h1
    refine ⟨{ header := msg.header, encoding := .bgr8,
              image := { Q with channels := 3, data := Q.data.flatMap (fun v => [v, v, v]) } },
      ?_, ?_⟩
    · simp [cvtColor, hq, ColorCode.scn, hQch]
    · intro v hv
      simp only [List.mem_flatMap] at hv
      obtain ⟨w, hw, hvw⟩ := hv
      have : v = w := by simpa using hvw
      subst this
      exact hz v hw
  · subst h3
    exact ⟨{ header := msg.header, encoding := .bgr8, image := Q }, by simp [hQch], hz⟩

/-- C8, failing input. A 1x1 rgba16 frame (16 bits, 4 channels) whose samples all equal 7:
after the rescale the image still has 4 channels, line 60 asks OpenCV to convert it from
grey, OpenCV raises `cv::Exception`, and the exception leaves `imageCb`. -/
theorem normalizeFrame_constant_rgba16_raises :
    frameRGBA16.valid ∧ bitDepth frameRGBA16.encoding = .ok 16 ∧
      frameRGBA16.data = [7, 7, 7, 7] ∧
      normalizeFrame kernels0 frameRGBA16 =
        .error (.cv_Exception "Invalid number of channels in input image") ∧
      imageCb kernels0 finderOk frameRGBA16 =
        .error (.cv_Exception "Invalid number of channels in input image") :=
  ⟨⟨by decide, by decide, .CV_16U, 4, rfl, by decide, rfl⟩, rfl, rfl, rfl, rfl⟩

end TargetDetector
